import Mathlib

/-!
Verification development for the solar gap-analysis / interpolation core
(`services/interpolationService/models/gap_analysis.py` and
`services/interpolationService/models/interpolation.py`).

The Python sources are shallowly embedded: pandas frames become lists of
rows, a row being a timestamp (in whole hours) paired with an association
list from column names to optional rational values (`none` is the NaN
missingness sentinel, never conflated with 0).  Fallible operations return
`Except PyError`.  Where the source compares integers against products
with the float literals 0.7 / 0.3 / 0.2 / 0.15, the embedding uses the
exact rational value of the IEEE-754 binary64 literal and a
round-to-nearest-ties-to-even rounding of the product to 53 significant
bits (`fround53`), which is exactly what CPython computes for these
positive operands.
-/

/-- Python exception kinds raised by the embedded code paths. -/
inductive PyError where
  | typeError : PyError
  | valueError : PyError
  | indexError : PyError
deriving DecidableEq, Repr

/-- Python `int(q)` on a float value: truncation toward zero. -/
def pyInt (q : ℚ) : ℤ :=
  if q < 0 then -Int.floor (-q) else Int.floor q

/-- Python truthiness of an optional string (`None` and `''` are falsy). -/
def truthyStr : Option String → Option String
  | none => none
  | some s => if s = "" then none else some s

/-!
## IEEE-754 binary64 arithmetic on positive rationals

`natLog2` is a fuel-based (hence kernel-reducible) binary logarithm;
`expo q` is the binade exponent of a positive rational; `fround53`
rounds a nonnegative rational to 53 significant bits with
round-to-nearest, ties-to-even — the binary64 rounding applied by
CPython to the exact product of two doubles.
-/

/-- Fuel-driven floor of the binary logarithm (`log2fuel n n = ⌊log₂ n⌋`). -/
def log2fuel : ℕ → ℕ → ℕ
  | 0, _ => 0
  | fuel + 1, n => if n < 2 then 0 else log2fuel fuel (n / 2) + 1

/-- Floor of the binary logarithm of a natural number (0 at 0). -/
def natLog2 (n : ℕ) : ℕ := log2fuel n n

/-- Round a rational to the nearest integer, ties to even. -/
def rnEven (q : ℚ) : ℤ :=
  let f := Int.floor q
  if q - f < 1/2 then f
  else if (1:ℚ)/2 < q - f then f + 1
  else if 2 ∣ f then f else f + 1

/-- Binade exponent of a positive rational: `2 ^ expo q ≤ q < 2 ^ (expo q + 1)`. -/
def expo (q : ℚ) : ℤ :=
  let e0 : ℤ := (natLog2 q.num.natAbs : ℤ) - (natLog2 q.den : ℤ)
  if q < (2:ℚ) ^ e0 then e0 - 1 else e0

/-- Round a rational to 53 significant binary digits (round to nearest,
ties to even); nonpositive inputs map to 0.  This is IEEE-754 binary64
rounding for positive values in the normal range. -/
def fround53 (q : ℚ) : ℚ :=
  if q ≤ 0 then 0
  else (rnEven (q * (2:ℚ) ^ ((52:ℤ) - expo q)) : ℚ) * (2:ℚ) ^ (expo q - (52:ℤ))

/-- The IEEE-754 binary64 value of the literal `0.7`. -/
def c07 : ℚ := 3152519739159347 / 4503599627370496

/-- The IEEE-754 binary64 value of the literal `0.3`. -/
def c03 : ℚ := 5404319552844595 / 18014398509481984

/-- The IEEE-754 binary64 value of the literal `0.2`. -/
def c02 : ℚ := 3602879701896397 / 18014398509481984

/-- The IEEE-754 binary64 value of the literal `0.15`. -/
def c015 : ℚ := 5404319552844595 / 36028797018963968

/-!
## Frames and the solar-constraint post-processor

`BaseInterpolator.apply_solar_constraints` (interpolation.py:188-207):
convert the time column to datetime, derive the hour, force power to 0 on
the night mask `hour <= 5 or hour >= 19` (this also overwrites NaN), then
clip every power value to `>= 0` (NaN is left NaN by `clip`).
-/

/-- A row: timestamp in whole hours since the epoch, and an association
list from column name to optional value (`none` = NaN). -/
abbrev Row := ℕ × List (String × Option ℚ)

/-- A data frame: a list of rows. -/
abbrev Frame := List Row

/-- Hour of day of a timestamp expressed in whole hours. -/
def hourOf (t : ℕ) : ℕ := t % 24

/-- Night mask of `apply_solar_constraints`: `hour <= 5 or hour >= 19`. -/
def isNight (t : ℕ) : Bool := hourOf t ≤ 5 || 19 ≤ hourOf t

/-- One cell of the solar-constraint post-processor: night rows are
assigned 0 (also when missing), then values are clipped to `≥ 0`
(missing stays missing under `clip`). -/
def constrainCell (night : Bool) (v : Option ℚ) : Option ℚ :=
  if night then some 0 else v.map (fun x => max x 0)

/-- `BaseInterpolator.apply_solar_constraints`: applied to every power
column of every row; other columns are untouched. -/
def applySolarConstraints (powerCols : List String) (f : Frame) : Frame :=
  f.map (fun r =>
    (r.1, r.2.map (fun cv =>
      if cv.1 ∈ powerCols then (cv.1, constrainCell (isNight r.1) cv.2) else cv)))

/-!
## Gap Detector (`SolarGapAnalyzer.find_gaps_generic`, gap_analysis.py:106-154)

The source builds `gap_starts = is_missing & is_not_missing.shift(1).fillna(False)`
and `gap_ends = is_not_missing & is_missing.shift(1).fillna(False)` — both
shifted masks are `False` at index 0 — and then walks the series with the
`if gap_start / elif missing and tracking / elif gap_end and tracking`
chain, finally emitting a still-open gap that reaches the end of the data.
The embedding keeps the missingness vector (`true` = missing) and carries
the loop state through a fold.
-/

/-- One detected gap: contiguous missing run with its bounds and length. -/
structure GapRec where
  startIndex : ℕ
  endIndex : ℕ
  length : ℕ
deriving DecidableEq, Repr

/-- Loop state of `find_gaps_generic`: next index, whether the previous
element was missing / present (both `false` before the first element,
mirroring `fillna(False)` on the shifted masks), the currently tracked
gap as (start, length), and the gaps emitted so far. -/
structure GapScan where
  idx : ℕ
  prevMiss : Bool
  prevPres : Bool
  cur : Option (ℕ × ℕ)
  acc : List GapRec
deriving Repr

/-- One iteration of the `find_gaps_generic` loop body. -/
def gapStep (st : GapScan) (m : Bool) : GapScan :=
  let gapStart := m && st.prevPres
  let gapEnd := !m && st.prevMiss
  let next : Option (ℕ × ℕ) × List GapRec :=
    if gapStart then (some (st.idx, 1), st.acc)
    else
      match st.cur with
      | some sl =>
          if m then (some (sl.1, sl.2 + 1), st.acc)
          else if gapEnd then (none, st.acc ++ [⟨sl.1, st.idx - 1, sl.2⟩])
          else (some sl, st.acc)
      | none => (none, st.acc)
  ⟨st.idx + 1, m, !m, next.1, next.2⟩

/-- Initial state of the gap scan. -/
def gapInit : GapScan := ⟨0, false, false, none, []⟩

/-- `find_gaps_generic` on the missingness vector of one column
(`true` = the value is missing): the loop over the series followed by the
handler for a gap that extends to the end of the data. -/
def findGapsGeneric (miss : List Bool) : List GapRec :=
  let st := miss.foldl gapStep gapInit
  match st.cur with
  | some sl => st.acc ++ [⟨sl.1, st.idx - 1, sl.2⟩]
  | none => st.acc

/-!
## Gap-length binning (`SolarGapAnalyzer._bin_gap_lengths`, gap_analysis.py:233-244)

`np.histogram(gap_lengths, bins=[1,2,3,6,12,24,48,168,1000])` yields 8
counts; every bin is left-inclusive/right-exclusive except the last,
which is `[168, 1000]` (right-inclusive).  The loop
`for i in range(len(bins) - 1)` labels the 8 counts with the first 8
entries of `['1h','2h','3h','6h','12h','1d','2d','1w','>1w']`, so the
ninth label `'>1w'` is never emitted.
-/

/-- Count of values in a half-open histogram bin `[lo, hi)`, or in the
closed final bin `[lo, hi]` when `isLast` is set (numpy semantics). -/
def histCount (lo hi : ℕ) (isLast : Bool) (ls : List ℕ) : ℕ :=
  ls.countP (fun v => decide (lo ≤ v) && (isLast && decide (v ≤ hi) || !isLast && decide (v < hi)))

/-- `_bin_gap_lengths`: the 8 labelled histogram counts over the fixed
edges `[1,2,3,6,12,24,48,168,1000]`. -/
def binGapLengths (ls : List ℕ) : List (String × ℕ) :=
  [("1h", histCount 1 2 false ls),
   ("2h", histCount 2 3 false ls),
   ("3h", histCount 3 6 false ls),
   ("6h", histCount 6 12 false ls),
   ("12h", histCount 12 24 false ls),
   ("1d", histCount 24 48 false ls),
   ("2d", histCount 48 168 false ls),
   ("1w", histCount 168 1000 true ls)]

/-!
## Degradation classification
(`SolarGapAnalyzer._analyze_column_failure_pattern`, gap_analysis.py:630-683)

The function returns all labels `'unknown'` when fewer than 3 gaps exist;
the degradation branch runs only under `len(gap_lengths) > 5` and
classifies the Pearson correlation between numeric gap start time and gap
length: `> 0.3` → detected, `< -0.3` → improving, else stable (a NaN
correlation, arising from zero variance, compares false on both and thus
yields stable).  The embedding decides `r > 3/10` and `r < -3/10` by
cross-multiplied squares, which is equivalent because `sqrt` is monotone;
both comparisons are false when either variance term vanishes, matching
NaN propagation in `np.corrcoef`.
-/

/-- Sum of a list of rationals. -/
def qsum (l : List ℚ) : ℚ := l.foldl (· + ·) 0

/-- `n·Σxy − Σx·Σy`: the numerator of the Pearson correlation (scaled by
`n²` relative to the covariance). -/
def pearsonNum (xs ys : List ℚ) : ℚ :=
  (xs.length : ℚ) * qsum (List.zipWith (· * ·) xs ys) - qsum xs * qsum ys

/-- `n·Σx² − (Σx)²`: the scaled variance term of one coordinate. -/
def pearsonVar (xs : List ℚ) : ℚ :=
  (xs.length : ℚ) * qsum (List.zipWith (· * ·) xs xs) - qsum xs * qsum xs

/-- Decides `pearson_r xs ys > 3/10` (false when a variance vanishes,
like the NaN produced by `np.corrcoef`). -/
def corrAbove (xs ys : List ℚ) : Bool :=
  let n := pearsonNum xs ys
  let d := pearsonVar xs * pearsonVar ys
  decide (0 < d) && decide (0 < n) && decide (9 * d < 100 * n * n)

/-- Decides `pearson_r xs ys < -3/10` (false when a variance vanishes). -/
def corrBelow (xs ys : List ℚ) : Bool :=
  let n := pearsonNum xs ys
  let d := pearsonVar xs * pearsonVar ys
  decide (0 < d) && decide (n < 0) && decide (9 * d < 100 * n * n)

/-- The `degradation` label computed by `_analyze_column_failure_pattern`
from the gap start times (numeric) and gap lengths of one column. -/
def degradationLabel (gapTimes gapLengths : List ℚ) : String :=
  if gapTimes.length < 3 then "unknown"
  else if 5 < gapLengths.length then
    if corrAbove gapTimes gapLengths then "detected"
    else if corrBelow gapTimes gapLengths then "improving"
    else "stable"
  else "unknown"

/-!
## Method Recommender fallback
(`SolarGapAnalyzer.recommend_methods_generic`, gap_analysis.py:819-925)

The primary-method selection: with `total_gaps == 0` the function returns
early with `'unknown'`; `'system_wide_failures'` and
`'individual_equipment_failures'` take their pattern branches; any other
primary pattern falls back to the gap-length thresholds
`short > total*0.7`, `medium > total*0.3`, `long > total*0.2`, evaluated
in binary64 arithmetic.  `short` sums the `'1h','2h','3h'` bins, `medium`
the `'6h','12h','1d'` bins, `long` the `'2d','1w','>1w'` bins, and
`total` is the sum of all values present in the distribution dict.
-/

/-- A gap-length distribution document: the 8 bins emitted by
`_bin_gap_lengths` plus the `'>1w'` key read (with default 0) by the
recommender. -/
structure GapDist where
  h1 : ℕ
  h2 : ℕ
  h3 : ℕ
  h6 : ℕ
  h12 : ℕ
  d1 : ℕ
  d2 : ℕ
  w1 : ℕ
  gt1w : ℕ
deriving DecidableEq, Repr

/-- `short_gaps = dist['1h'] + dist['2h'] + dist['3h']`. -/
def shortGaps (d : GapDist) : ℕ := d.h1 + d.h2 + d.h3

/-- `medium_gaps = dist['6h'] + dist['12h'] + dist['1d']`. -/
def mediumGaps (d : GapDist) : ℕ := d.h6 + d.h12 + d.d1

/-- `long_gaps = dist['2d'] + dist['1w'] + dist['>1w']`. -/
def longGaps (d : GapDist) : ℕ := d.d2 + d.w1 + d.gt1w

/-- `total_gaps = sum(gap_dist.values())`. -/
def totalGaps (d : GapDist) : ℕ :=
  d.h1 + d.h2 + d.h3 + d.h6 + d.h12 + d.d1 + d.d2 + d.w1 + d.gt1w

/-- The Python comparison `a > n * c` for an integer count `a`, an integer
total `n` and a float constant `c`: the product is rounded to binary64. -/
def pyGtMulFloat (a n : ℕ) (c : ℚ) : Bool :=
  decide (fround53 ((n : ℚ) * c) < (a : ℚ))

/-- The `primary_method` selected by `recommend_methods_generic` from the
pattern summary (primary pattern and secondary patterns) and the
gap-length distribution. -/
def recommendPrimary (primaryPattern : String) (secondaryPatterns : List String)
    (d : GapDist) : String :=
  if totalGaps d = 0 then "unknown"
  else if primaryPattern = "system_wide_failures" then "system_level_interpolation"
  else if primaryPattern = "individual_equipment_failures" then
    if "equipment_degradation" ∈ secondaryPatterns then "degradation_aware_interpolation"
    else if "maintenance_patterns" ∈ secondaryPatterns then "maintenance_aware_interpolation"
    else if "random_failures" ∈ secondaryPatterns then "equipment_specific_interpolation"
    else "multi_output_regression"
  else
    if pyGtMulFloat (shortGaps d) (totalGaps d) c07 then "spline_interpolation"
    else if pyGtMulFloat (mediumGaps d) (totalGaps d) c03 then "gaussian_process"
    else if pyGtMulFloat (longGaps d) (totalGaps d) c02 then "physics_based_model"
    else "unknown"

/-- The fallback selection as the specification words it (refinement
reference, not translated from the source): exact-percentage thresholds —
short gaps exceeding 70% of the total select spline, otherwise medium
gaps exceeding 30% select the Gaussian process, otherwise long gaps
exceeding 20% select the physics model, otherwise nothing is selected. -/
def specFallbackSelect (d : GapDist) : String :=
  if 7 * totalGaps d < 10 * shortGaps d then "spline_interpolation"
  else if 3 * totalGaps d < 10 * mediumGaps d then "gaussian_process"
  else if totalGaps d < 5 * longGaps d then "physics_based_model"
  else "unknown"

/-!
## Interpolation Engine: registry, method resolution, call signatures
(`InterpolationEngine`, interpolation.py:1051-1363)

`get_recommended_method` (1165-1178) resolves the method name.  Because
of Python's conditional-expression precedence, the whole expression
`A or B if C else D` parses as `(A or B) if C else D`: when
`recommendations['primary_methods']` is not a list (in particular when
only `primary_method` is present) the result is `'spline_interpolation'`
unconditionally, and when it is a list, a falsy `primary_method` indexes
`primary_methods[0]` (raising `IndexError` on an empty list).
`run_interpolation` (1247-1251) then raises `ValueError` for a resolved
name not in `self.interpolators`.

The engine constructs every strategy as
`interpolator_class(interpolation_config=interp_config)` and calls
`fit(df, power_columns, time_column, self.weather_data)` and
`interpolate(df, power_columns, time_column, self.weather_data)` — four
positional arguments.  The call is checked against each class's
`__init__` / `fit` / `interpolate` parameter lists (excluding `self`).
-/

/-- `InterpolationEngine.get_recommended_method`. -/
def getRecommendedMethod (userMethod primaryMethod : Option String)
    (primaryMethods : Option (List String)) : Except PyError String :=
  match truthyStr userMethod with
  | some u => .ok u
  | none =>
    match primaryMethods with
    | some l =>
      match truthyStr primaryMethod with
      | some p => .ok p
      | none =>
        match l with
        | [] => .error .indexError
        | x :: _ => .ok x
    | none => .ok "spline_interpolation"

/-- The four strategy classes of the engine registry. -/
inductive StrategyClass where
  | spline : StrategyClass
  | gaussian : StrategyClass
  | physics : StrategyClass
  | multiOutput : StrategyClass
deriving DecidableEq, Repr

/-- `InterpolationEngine.__init__`'s `self.interpolators` dict
(interpolation.py:1055-1064), aliases included. -/
def interpolatorRegistry : List (String × StrategyClass) :=
  [("spline_interpolation", .spline),
   ("gaussian_process", .gaussian),
   ("physics_based_model", .physics),
   ("multi_output_regression", .multiOutput),
   ("system_level_interpolation", .multiOutput),
   ("degradation_aware_interpolation", .gaussian),
   ("maintenance_aware_interpolation", .physics),
   ("equipment_specific_interpolation", .spline)]

/-- The method names known to the engine. -/
def interpolatorKeys : List String := interpolatorRegistry.map Prod.fst

/-- The registry check of `run_interpolation`:
`if method not in self.interpolators: raise ValueError(...)`. -/
def checkMethodKnown (m : String) : Except PyError String :=
  if m ∈ interpolatorKeys then .ok m else .error .valueError

/-- `run_interpolation`'s method resolution followed by the registry
check. -/
def resolveAndCheckMethod (userMethod primaryMethod : Option String)
    (primaryMethods : Option (List String)) : Except PyError String := do
  let m ← getRecommendedMethod userMethod primaryMethod primaryMethods
  checkMethodKnown m

/-- A Python callable signature: parameter names in order (excluding
`self`) and the number of trailing parameters that carry defaults. -/
structure PySig where
  params : List String
  defaults : ℕ
deriving Repr

/-- Position of a name in a list (length when absent). -/
def posOf (x : String) : List String → ℕ
  | [] => 0
  | y :: ys => if y = x then 0 else posOf x ys + 1

/-- Whether a Python call with `npos` positional arguments and keyword
arguments `kws` binds against `sig` (distinct parameter names assumed):
no extra positional argument, every keyword names a parameter not already
filled positionally, and every parameter without a default is filled. -/
def bindsCall (sig : PySig) (npos : ℕ) (kws : List String) : Bool :=
  decide (npos ≤ sig.params.length) &&
  kws.all (fun k => decide (k ∈ sig.params) && decide (npos ≤ posOf k sig.params)) &&
  (sig.params.take (sig.params.length - sig.defaults)).all
    (fun p => decide (posOf p sig.params < npos) || decide (p ∈ kws))

/-- `__init__` signature of each strategy class: the spline, Gaussian
process and physics classes only take `BaseInterpolator`'s
`(config=None)`; only `MultiOutputRegressionInterpolator.__init__` adds
`interpolation_config=None` (interpolation.py:167, 387, 483, 575). -/
def ctorSigOf : StrategyClass → PySig
  | .spline => ⟨["config"], 1⟩
  | .gaussian => ⟨["config"], 1⟩
  | .physics => ⟨["config"], 1⟩
  | .multiOutput => ⟨["config", "interpolation_config"], 2⟩

/-- `fit` signature of each strategy class: only the multi-output class
accepts the optional `weather_data` argument (interpolation.py:340, 394,
490, 586). -/
def fitSigOf : StrategyClass → PySig
  | .spline => ⟨["df", "power_columns", "time_column"], 0⟩
  | .gaussian => ⟨["df", "power_columns", "time_column"], 0⟩
  | .physics => ⟨["df", "power_columns", "time_column"], 0⟩
  | .multiOutput => ⟨["df", "power_columns", "time_column", "weather_data"], 1⟩

/-- `interpolate` signature of each strategy class (interpolation.py:350,
445, 535, 888). -/
def interpSigOf : StrategyClass → PySig
  | .spline => ⟨["df", "power_columns", "time_column"], 0⟩
  | .gaussian => ⟨["df", "power_columns", "time_column"], 0⟩
  | .physics => ⟨["df", "power_columns", "time_column"], 0⟩
  | .multiOutput => ⟨["df", "power_columns", "time_column", "weather_data"], 1⟩

/-- The engine's dispatch sequence for a strategy class
(interpolation.py:1316-1326): construct with the keyword argument
`interpolation_config`, then call `fit` and `interpolate` with four
positional arguments; the first call that does not bind raises
`TypeError`. -/
def engineInvoke (cls : StrategyClass) : Except PyError Unit :=
  if bindsCall (ctorSigOf cls) 0 ["interpolation_config"] then
    if bindsCall (fitSigOf cls) 4 [] then
      if bindsCall (interpSigOf cls) 4 [] then .ok ()
      else .error .typeError
    else .error .typeError
  else .error .typeError

/-!
## Validation split
(`InterpolationEngine.create_validation_split`, interpolation.py:1180-1212)

Complete rows are those with every power column non-missing.  With fewer
than 20 complete rows the function returns the frame unchanged together
with an `'error'` diagnostic (modelled as `none`).  Otherwise it seeds
`np.random.seed(42)` and draws
`n_validation = max(10, int(len(complete_indices) * 0.15))` distinct
complete indices without replacement; the seeded Mersenne-Twister draw is
a fixed function of its inputs and is abstracted as the `choice`
parameter, constrained in the theorems to return `k` elements of its
pool.  The chosen rows are nulled and their original values stored.
-/

/-- Whether a row (its power-column values) is complete. -/
def completeRowQ (row : List (Option ℚ)) : Bool := row.all Option.isSome

/-- Indices of the complete rows of a frame of power-column values. -/
def completeIndicesQ (f : List (List (Option ℚ))) : List ℕ :=
  (List.range f.length).filter (fun i => completeRowQ (f.getD i []))

/-- `n_validation = max(10, int(len(complete_indices) * 0.15))`, the
multiplication performed in binary64. -/
def nValidation (c : ℕ) : ℕ :=
  max 10 (pyInt (fround53 ((c : ℚ) * c015))).toNat

/-- The validation bookkeeping returned by `create_validation_split`. -/
structure ValSplitInfo where
  validationIndices : List ℕ
  validationData : List (ℕ × List (Option ℚ))
  nValidationPoints : ℕ
deriving Repr

/-- Null the power values of the rows at the selected indices. -/
def maskRowsQ (f : List (List (Option ℚ))) (idxs : List ℕ) : List (List (Option ℚ)) :=
  f.enum.map (fun ir => if ir.1 ∈ idxs then ir.2.map (fun _ => (none : Option ℚ)) else ir.2)

/-- `create_validation_split` over the power columns of a frame; `none`
in the second component is the `{'error': ...}` diagnostic for
insufficient complete data. -/
def createValidationSplit (choice : List ℕ → ℕ → List ℕ)
    (f : List (List (Option ℚ))) :
    List (List (Option ℚ)) × Option ValSplitInfo :=
  let ci := completeIndicesQ f
  if ci.length < 20 then (f, none)
  else
    let idxs := choice ci (nValidation ci.length)
    (maskRowsQ f idxs,
     some ⟨idxs, idxs.map (fun i => (i, f.getD i [])), idxs.length⟩)

/-- A concrete single-draw function satisfying the contract of the
seeded `np.random.choice(..., replace=False)`: take the first `k` pool
elements (used to instantiate theorems about `create_validation_split`).
-/
def chooseFirst (l : List ℕ) (k : ℕ) : List ℕ := l.take k

/-!
## Interpolator strategies (interpolation.py:334-1048)

The numeric models inside the strategies (cubic splines, Gaussian-process
regressors, LightGBM ensembles, the cosine of the physics curve) are
abstracted as total function parameters — the claims under examination
concern the control flow: fitted-state guards, data-sufficiency
thresholds, fallbacks and the call signatures, all of which are embedded
from the source.
-/

/-- The non-missing (timestamp, value) points of one column. -/
def knownPoints (col : String) (f : Frame) : List (ℕ × ℚ) :=
  f.filterMap (fun r =>
    match r.2.lookup col with
    | some (some v) => some (r.1, v)
    | _ => none)

/-- `SplineInterpolator.interpolate` (interpolation.py:350-381): no
fitted-state check is performed; each power column with more than 3
known points has its missing values filled by the fitted spline `sp`
(scipy's `interp1d(kind='cubic', fill_value='extrapolate')`, abstracted),
columns with at most 3 known points are left unfilled; solar constraints
are applied at the end.  The function never raises. -/
def splineInterpolate (sp : List (ℕ × ℚ) → ℕ → ℚ) (isFitted : Bool)
    (powerCols : List String) (f : Frame) : Except PyError Frame :=
  let filled := f.map (fun r =>
    (r.1, r.2.map (fun cv =>
      if cv.1 ∈ powerCols ∧ cv.2 = none ∧ 3 < (knownPoints cv.1 f).length then
        (cv.1, some (sp (knownPoints cv.1 f) r.1))
      else cv)))
  .ok (applySolarConstraints powerCols filled)

/-- `GaussianProcessInterpolator.interpolate` (interpolation.py:445-477):
raises `ValueError("Must call fit() before interpolate()")` when not
fitted; otherwise fills the missing values of every power column that has
a trained model (abstracted predictors) and applies solar constraints. -/
def gpInterpolate (models : List (String × (ℕ → ℚ))) (isFitted : Bool)
    (powerCols : List String) (f : Frame) : Except PyError Frame :=
  if isFitted = false then .error .valueError
  else
    .ok (applySolarConstraints powerCols (f.map (fun r =>
      (r.1, r.2.map (fun cv =>
        if cv.1 ∈ powerCols ∧ cv.2 = none then
          match models.lookup cv.1 with
          | some pred => (cv.1, some (pred r.1))
          | none => cv
        else cv)))))

/-- `PhysicsBasedInterpolator.calculate_theoretical_solar_curve`
(interpolation.py:518-533): `max_capacity * max(0, cos((h - peak)·π/6))`
for hours in `[6, 18]` and 0 outside; `cosFn x` abstracts `cos(x·π/6)`. -/
def theoreticalSolarCurve (cosFn : ℚ → ℚ) (maxCapacity : ℚ) (peakHour : ℤ)
    (hour : ℕ) : ℚ :=
  if 6 ≤ hour ∧ hour ≤ 18 then maxCapacity * max 0 (cosFn ((hour : ℚ) - (peakHour : ℚ)))
  else 0

/-- `PhysicsBasedInterpolator.interpolate` (interpolation.py:535-569):
raises `ValueError` when not fitted; fills missing values of columns with
estimated parameters via the theoretical curve; applies constraints. -/
def physicsInterpolate (cosFn : ℚ → ℚ) (params : List (String × (ℚ × ℤ)))
    (isFitted : Bool) (powerCols : List String) (f : Frame) : Except PyError Frame :=
  if isFitted = false then .error .valueError
  else
    .ok (applySolarConstraints powerCols (f.map (fun r =>
      (r.1, r.2.map (fun cv =>
        if cv.1 ∈ powerCols ∧ cv.2 = none then
          match params.lookup cv.1 with
          | some p => (cv.1, some (theoreticalSolarCurve cosFn p.1 p.2 (hourOf r.1)))
          | none => cv
        else cv)))))

/-- The fitted state of `MultiOutputRegressionInterpolator`: `is_fitted`
and `self.model`, whose Python truthiness distinguishes `None` and an
empty dict (both falsy) from a populated model (predictors abstracted). -/
structure MOState where
  isFitted : Bool
  model : Option (List (String × (ℕ → ℚ)))

/-- Python truthiness of `self.model` (`None` and `{}` are falsy). -/
def modelTruthy : Option (List (String × (ℕ → ℚ))) → Bool
  | none => false
  | some l => !l.isEmpty

/-- The state established by `MultiOutputRegressionInterpolator.__init__`
(interpolation.py:575-581): not fitted, `self.model = None`. -/
def moInit : MOState := ⟨false, none⟩

/-- Number of rows where all power columns have values
(`df_features[power_columns].notna().all(axis=1)` summed). -/
def completeCount (powerCols : List String) (f : Frame) : ℕ :=
  (f.filter (fun r => powerCols.all (fun c =>
    match r.2.lookup c with
    | some (some _) => true
    | _ => false))).length

/-- `_fit_independent_models` (mode b, interpolation.py:722-791): trains
one model per power column only when strictly more than 100 complete rows
exist, otherwise `self.model` stays `None`; `is_fitted` is set to `True`
either way.  The trained per-column predictors are abstracted by
`predict`. -/
def moFitIndependent (predict : String → ℕ → ℚ) (powerCols : List String)
    (f : Frame) : MOState :=
  if 100 < completeCount powerCols f then
    ⟨true, some (powerCols.map (fun c => (c, predict c)))⟩
  else ⟨true, none⟩

/-- `_fit_multi_output_model` (mode c, interpolation.py:821-886): one
joint model when strictly more than 100 complete rows exist, else
`self.model` stays `None`; `is_fitted` set to `True` either way. -/
def moFitJoint (predict : String → ℕ → ℚ) (powerCols : List String)
    (f : Frame) : MOState :=
  if 100 < completeCount powerCols f then ⟨true, some [("joint", predict "joint")]⟩
  else ⟨true, none⟩

/-- `MultiOutputRegressionInterpolator.fit` (interpolation.py:586-606):
mode dispatch on `(model_equipment_independently, use_equipment_correlation)`
with defaults `(True, False)`; mode a (both flags true) is abstracted by
`modeAFit` since no claim depends on it. -/
def moFit (modeAFit : MOState) (predict : String → ℕ → ℚ)
    (modelIndependently useCorrelation : Bool) (powerCols : List String)
    (f : Frame) : MOState :=
  if modelIndependently && useCorrelation then modeAFit
  else if modelIndependently then moFitIndependent predict powerCols f
  else moFitJoint predict powerCols f

/-- `MultiOutputRegressionInterpolator.interpolate` (interpolation.py:
888-1014): when `not self.is_fitted or not self.model`, it falls back to
a fresh `SplineInterpolator` — but the fallback calls
`spline_interpolator.fit(df, power_columns, time_column, weather_data)`
with four positional arguments against `SplineInterpolator.fit`'s
three-parameter signature, which raises `TypeError` before any
interpolation happens.  Otherwise missing values are filled by the
trained predictors and solar constraints are applied. -/
def moInterpolate (st : MOState) (powerCols : List String) (f : Frame) :
    Except PyError Frame :=
  if st.isFitted = false ∨ modelTruthy st.model = false then
    if bindsCall (fitSigOf .spline) 4 [] then
      .ok (applySolarConstraints powerCols f)
    else .error .typeError
  else
    .ok (applySolarConstraints powerCols (f.map (fun r =>
      (r.1, r.2.map (fun cv =>
        if cv.1 ∈ powerCols ∧ cv.2 = none then
          match (st.model.getD []).lookup cv.1 with
          | some pred => (cv.1, some (pred r.1))
          | none => cv
        else cv)))))

/-!
## Theorems
-/

/-- The solar-constraint cell transform is idempotent. -/
theorem constrainCell_idem (b : Bool) (v : Option ℚ) :
    constrainCell b (constrainCell b v) = constrainCell b v := by
  cases b with
  | true => rfl
  | false =>
    cases v with
    | none => rfl
    | some x =>
      simp only [constrainCell, if_neg Bool.false_ne_true, Option.map_some]
      exact congrArg some (max_eq_left (le_max_right x 0))

/-- C9.  Solar-constraint idempotence: applying the nighttime-zero +
non-negative-clip post-processor of `BaseInterpolator.apply_solar_constraints`
twice yields the same frame as applying it once, for every frame and every
set of power columns. -/
theorem C9_solar_constraint_idempotent (powerCols : List String) (f : Frame) :
    applySolarConstraints powerCols (applySolarConstraints powerCols f) =
      applySolarConstraints powerCols f := by
  simp only [applySolarConstraints, List.map_map]
  refine List.map_congr_left ?_
  intro r _
  simp only [Function.comp_apply, List.map_map]
  refine congrArg (fun l => (r.1, l)) (List.map_congr_left ?_)
  intro cv _
  by_cases h : cv.1 ∈ powerCols
  · simp only [Function.comp_apply, if_pos h, constrainCell_idem]
  · simp only [Function.comp_apply, if_neg h]

/-- The eight labelled bin counts sum to the number of gap lengths lying
in `[1, 1000]`: the histogram bins partition that interval. -/
theorem binGapLengths_sum (ls : List ℕ) :
    ((binGapLengths ls).map Prod.snd).sum =
      ls.countP (fun v => decide (1 ≤ v) && decide (v ≤ 1000)) := by
  induction ls with
  | nil => rfl
  | cons v t ih =>
    simp only [binGapLengths, histCount, List.countP_cons, List.map_cons, List.sum_cons,
      List.map_nil, List.sum_nil, Bool.false_and, Bool.true_and, Bool.not_false, Bool.not_true,
      Bool.false_or, Bool.or_false, Bool.and_eq_true, decide_eq_true_eq] at *
    split_ifs <;> omega

/-- C10.  Gap-length binning invariant: for every list of gap lengths,
`_bin_gap_lengths` emits exactly the 8 keys 1h..1w (the configured ninth
label `>1w` never appears); the bin counts sum to the number of gaps with
length inside `[1, 1000]`, hence possibly to fewer than the number of
gaps; bins are left-inclusive/right-exclusive except the last, so a gap
of exactly 6 lands in `6h` and one of exactly 168 lands in `1w`. -/
theorem C10_bin_invariant (ls : List ℕ) :
    ((binGapLengths ls).map Prod.fst = ["1h", "2h", "3h", "6h", "12h", "1d", "2d", "1w"]) ∧
    (">1w" ∉ (binGapLengths ls).map Prod.fst) ∧
    (((binGapLengths ls).map Prod.snd).sum =
      ls.countP (fun v => decide (1 ≤ v) && decide (v ≤ 1000))) ∧
    (((binGapLengths ls).map Prod.snd).sum ≤ ls.length) ∧
    (binGapLengths [6] =
      [("1h", 0), ("2h", 0), ("3h", 0), ("6h", 1), ("12h", 0), ("1d", 0), ("2d", 0), ("1w", 0)]) ∧
    (binGapLengths [168] =
      [("1h", 0), ("2h", 0), ("3h", 0), ("6h", 0), ("12h", 0), ("1d", 0), ("2d", 0), ("1w", 1)]) ∧
    (binGapLengths [1001] =
      [("1h", 0), ("2h", 0), ("3h", 0), ("6h", 0), ("12h", 0), ("1d", 0), ("2d", 0), ("1w", 0)]) := by
  have hk : (binGapLengths ls).map Prod.fst =
      ["1h", "2h", "3h", "6h", "12h", "1d", "2d", "1w"] := rfl
  refine ⟨hk, ?_, binGapLengths_sum ls, ?_, by decide, by decide, by decide⟩
  · rw [hk]; decide
  · rw [binGapLengths_sum ls]
    exact List.countP_le_length _

/-- C2.  Strategy invocability through the engine registry: the engine's
dispatch (`cls(interpolation_config=...)`, then `fit` / `interpolate`
with four positional arguments) binds only for the multi-output class —
reached by the names `multi_output_regression` and
`system_level_interpolation` — while the spline, Gaussian-process and
physics classes (the other six registry names) raise `TypeError` already
at construction (`interpolation_config` is not a parameter of
`BaseInterpolator.__init__`), and their `fit` / `interpolate` would also
reject the fourth positional `weather_data` argument. -/
theorem C2_strategy_invocability :
    engineInvoke .multiOutput = .ok () ∧
    engineInvoke .spline = .error .typeError ∧
    engineInvoke .gaussian = .error .typeError ∧
    engineInvoke .physics = .error .typeError ∧
    bindsCall (ctorSigOf .spline) 0 ["interpolation_config"] = false ∧
    bindsCall (fitSigOf .spline) 4 [] = false ∧
    bindsCall (interpSigOf .spline) 4 [] = false ∧
    interpolatorRegistry.lookup "spline_interpolation" = some .spline ∧
    interpolatorRegistry.lookup "gaussian_process" = some .gaussian ∧
    interpolatorRegistry.lookup "physics_based_model" = some .physics ∧
    interpolatorRegistry.lookup "multi_output_regression" = some .multiOutput ∧
    interpolatorRegistry.lookup "system_level_interpolation" = some .multiOutput ∧
    interpolatorRegistry.lookup "degradation_aware_interpolation" = some .gaussian ∧
    interpolatorRegistry.lookup "maintenance_aware_interpolation" = some .physics ∧
    interpolatorRegistry.lookup "equipment_specific_interpolation" = some .spline :=
  ⟨rfl, rfl, rfl, rfl, rfl, rfl, rfl, rfl, rfl, rfl, rfl, rfl, rfl, rfl, rfl⟩

/-- C1 counterexample: with no user override, a gap-analysis document
whose recommendations carry `primary_method = 'gaussian_process'` but no
`primary_methods` list resolves to `'spline_interpolation'` — the
conditional-expression precedence discards the present primary method,
contradicting the claim that the recommendations' `primary_method` is
returned whenever present. -/
theorem C1_counterexample :
    getRecommendedMethod none (some "gaussian_process") none = .ok "spline_interpolation" ∧
    ("spline_interpolation" : String) ≠ "gaussian_process" :=
  ⟨rfl, by decide⟩

/-- C1 (amended).  Method resolution: a truthy user override is returned
unchanged (an empty-string override falls through); when
`primary_methods` is absent (or not a list) the result is
`'spline_interpolation'` regardless of `primary_method`; when
`primary_methods` is a non-empty list, a truthy `primary_method` wins and
otherwise the list's first element is returned; an empty
`primary_methods` list with falsy `primary_method` raises `IndexError`;
and `run_interpolation` rejects (raises `ValueError` for) any resolved
name outside the engine registry. -/
theorem C1_method_resolution :
    (∀ (u : String) (pm : Option String) (pms : Option (List String)), u ≠ "" →
      getRecommendedMethod (some u) pm pms = .ok u) ∧
    (∀ (pm : Option String) (pms : Option (List String)),
      getRecommendedMethod (some "") pm pms = getRecommendedMethod none pm pms) ∧
    (∀ (pm : Option String), getRecommendedMethod none pm none = .ok "spline_interpolation") ∧
    (∀ (p x : String) (l : List String), p ≠ "" →
      getRecommendedMethod none (some p) (some (x :: l)) = .ok p) ∧
    (∀ (x : String) (l : List String),
      getRecommendedMethod none none (some (x :: l)) = .ok x) ∧
    (getRecommendedMethod none none (some []) = .error .indexError) ∧
    (∀ m : String, m ∉ interpolatorKeys → checkMethodKnown m = .error .valueError) := by
  refine ⟨?_, ?_, ?_, ?_, ?_, rfl, ?_⟩
  · intro u pm pms hu
    simp [getRecommendedMethod, truthyStr, hu]
  · intro pm pms
    simp [getRecommendedMethod, truthyStr]
  · intro pm
    simp [getRecommendedMethod, truthyStr]
  · intro p x l hp
    simp [getRecommendedMethod, truthyStr, hp]
  · intro x l
    simp [getRecommendedMethod, truthyStr]
  · intro m hm
    simp [checkMethodKnown, hm]

/-- C1 witness: the amended resolution evaluated at concrete inputs — a
real override wins, and an unknown resolved name is rejected. -/
theorem C1_method_resolution_witness :
    getRecommendedMethod (some "gaussian_process") none none = .ok "gaussian_process" ∧
    checkMethodKnown "cubic" = .error .valueError :=
  ⟨C1_method_resolution.1 "gaussian_process" none none (by decide),
   C1_method_resolution.2.2.2.2.2.2 "cubic" (by decide)⟩

/-- C4 counterexample: `SplineInterpolator.interpolate` performs no
fitted-state check — on a freshly constructed (unfitted) instance it
returns a frame instead of raising the fit-precondition failure. -/
theorem C4_counterexample :
    (splineInterpolate (fun _ _ => 0) false ["power_1"]
      [(12, [("power_1", none)])]).isOk = true ∧
    (Except.error PyError.valueError : Except PyError Frame).isOk = false :=
  ⟨rfl, rfl⟩

/-- C4 (amended).  Fit precondition by strategy: the Gaussian-process and
physics-based interpolators raise the precondition `ValueError` when
`interpolate` precedes `fit`; the spline interpolator performs no check
and returns a frame; a freshly constructed multi-output interpolator
(`is_fitted` false, `model` None) enters the spline fallback, whose
mis-aritied `fit` call raises `TypeError` — not the precondition
failure. -/
theorem C4_fit_precondition :
    (∀ (models : List (String × (ℕ → ℚ))) (cols : List String) (f : Frame),
      gpInterpolate models false cols f = .error .valueError) ∧
    (∀ (cosFn : ℚ → ℚ) (params : List (String × (ℚ × ℤ))) (cols : List String) (f : Frame),
      physicsInterpolate cosFn params false cols f = .error .valueError) ∧
    (∀ (sp : List (ℕ × ℚ) → ℕ → ℚ) (cols : List String) (f : Frame),
      (splineInterpolate sp false cols f).isOk = true) ∧
    (∀ (cols : List String) (f : Frame),
      moInterpolate moInit cols f = .error .typeError) := by
  refine ⟨fun _ _ _ => rfl, fun _ _ _ _ => rfl, fun _ _ _ => rfl, fun cols f => ?_⟩
  rfl

/-- C5.  Multi-output insufficient-data policy (modes b and c): with at
most 100 complete rows, `fit` silently leaves `self.model` empty while
setting `is_fitted`; the subsequent `interpolate` call takes the spline
fallback — but that fallback calls `SplineInterpolator.fit` with four
positional arguments against a three-parameter signature, raising
`TypeError` instead of returning the spline-interpolated frame. -/
theorem C5_insufficient_data_fallback
    (predict : String → ℕ → ℚ) (powerCols : List String) (f : Frame)
    (h : completeCount powerCols f ≤ 100) :
    (moFitIndependent predict powerCols f).isFitted = true ∧
    modelTruthy (moFitIndependent predict powerCols f).model = false ∧
    moInterpolate (moFitIndependent predict powerCols f) powerCols f = .error .typeError ∧
    (moFitJoint predict powerCols f).isFitted = true ∧
    modelTruthy (moFitJoint predict powerCols f).model = false ∧
    moInterpolate (moFitJoint predict powerCols f) powerCols f = .error .typeError := by
  have hn : ¬ 100 < completeCount powerCols f := not_lt.mpr h
  have hb : moFitIndependent predict powerCols f = ⟨true, none⟩ := by
    simp [moFitIndependent, hn]
  have hc : moFitJoint predict powerCols f = ⟨true, none⟩ := by
    simp [moFitJoint, hn]
  rw [hb, hc]
  exact ⟨rfl, rfl, rfl, rfl, rfl, rfl⟩

/-- C5 witness: the insufficient-data path evaluated on a concrete
one-row frame — `interpolate` after the empty fit raises `TypeError`. -/
theorem C5_insufficient_data_fallback_witness :
    moInterpolate (moFitIndependent (fun _ _ => 0) ["inverter_1"]
      [(0, [("inverter_1", some 1)])]) ["inverter_1"]
      [(0, [("inverter_1", some 1)])] = .error .typeError :=
  (C5_insufficient_data_fallback (fun _ _ => 0) ["inverter_1"]
    [(0, [("inverter_1", some 1)])] (by decide)).2.2.1

/-- Specification of the fuelled binary logarithm. -/
theorem log2fuel_spec : ∀ (fuel n : ℕ), 1 ≤ n → n ≤ fuel →
    2 ^ log2fuel fuel n ≤ n ∧ n < 2 ^ (log2fuel fuel n + 1) := by
  intro fuel
  induction fuel with
  | zero => intro n h1 h2; omega
  | succ fu ih =>
    intro n h1 h2
    by_cases hn : n < 2
    · have : n = 1 := by omega
      subst this
      simp [log2fuel]
    · have h2' : n / 2 ≤ fu := by omega
      have h1' : 1 ≤ n / 2 := by omega
      have := ih (n / 2) h1' h2'
      have hpow : 2 ^ (log2fuel fu (n / 2) + 1) = 2 * 2 ^ log2fuel fu (n / 2) := by
        rw [pow_succ]; ring
      have hpow2 : 2 ^ (log2fuel fu (n / 2) + 1 + 1) = 2 * 2 ^ (log2fuel fu (n / 2) + 1) := by
        rw [pow_succ]; ring
      simp only [log2fuel, if_neg hn]
      omega

/-- Specification of `natLog2`. -/
theorem natLog2_spec (n : ℕ) (h : 1 ≤ n) :
    2 ^ natLog2 n ≤ n ∧ n < 2 ^ (natLog2 n + 1) :=
  log2fuel_spec n n h le_rfl

/-- Specification of the binade exponent `expo`. -/
theorem expo_spec (q : ℚ) (hq : 0 < q) :
    (2:ℚ) ^ expo q ≤ q ∧ q < (2:ℚ) ^ (expo q + 1) := by
  have hnum : 0 < q.num := Rat.num_pos.mpr hq
  have hnn1 : 1 ≤ q.num.natAbs := Int.natAbs_pos.mpr (ne_of_gt hnum)
  have hdd1 : 1 ≤ q.den := q.pos
  obtain ⟨ha1, ha2⟩ := natLog2_spec q.num.natAbs hnn1
  obtain ⟨hb1, hb2⟩ := natLog2_spec q.den hdd1
  set a := natLog2 q.num.natAbs with ha
  set b := natLog2 q.den with hb
  have hq_eq : q = (q.num.natAbs : ℚ) / (q.den : ℚ) := by
    have h2 : ((q.num.natAbs : ℕ) : ℚ) = ((q.num : ℤ) : ℚ) := by
      rw [Int.cast_natAbs, abs_of_nonneg hnum.le]
    rw [h2, Rat.num_div_den]
  have hden_pos : (0:ℚ) < (q.den : ℚ) := by exact_mod_cast hdd1
  have hzpow : ∀ (m : ℕ), (2:ℚ) ^ (m : ℤ) = ((2 ^ m : ℕ) : ℚ) := by
    intro m
    rw [zpow_natCast]
    push_cast
    ring
  have key_low : (2:ℚ) ^ ((a:ℤ) - b - 1) < q := by
    have hnat : 2 ^ a * q.den < q.num.natAbs * 2 ^ (b + 1) := by
      calc 2 ^ a * q.den < 2 ^ a * 2 ^ (b + 1) :=
            (Nat.mul_lt_mul_left (Nat.pos_pow_of_pos a (by norm_num))).mpr hb2
        _ ≤ q.num.natAbs * 2 ^ (b + 1) := Nat.mul_le_mul_right _ ha1
    have hqq : ((2 ^ a : ℕ) : ℚ) / ((2 ^ (b + 1) : ℕ) : ℚ) < (q.num.natAbs : ℚ) / (q.den : ℚ) := by
      rw [div_lt_div_iff (by positivity) hden_pos]
      exact_mod_cast hnat
    have hexp : (2:ℚ) ^ ((a:ℤ) - b - 1) =
        ((2 ^ a : ℕ) : ℚ) / ((2 ^ (b + 1) : ℕ) : ℚ) := by
      have : (a:ℤ) - b - 1 = (a:ℤ) - ((b + 1 : ℕ) : ℤ) := by push_cast; ring
      rw [this, zpow_sub₀ (by norm_num : (2:ℚ) ≠ 0), hzpow, hzpow]
    rw [← hexp, ← hq_eq] at hqq
    exact hqq
  have key_high : q < (2:ℚ) ^ ((a:ℤ) - b + 1) := by
    have hnat : q.num.natAbs * 2 ^ b < 2 ^ (a + 1) * q.den := by
      calc q.num.natAbs * 2 ^ b < 2 ^ (a + 1) * 2 ^ b :=
            (Nat.mul_lt_mul_right (Nat.pos_pow_of_pos b (by norm_num))).mpr ha2
        _ ≤ 2 ^ (a + 1) * q.den := Nat.mul_le_mul_left _ hb1
    have hqq : (q.num.natAbs : ℚ) / (q.den : ℚ) < ((2 ^ (a + 1) : ℕ) : ℚ) / ((2 ^ b : ℕ) : ℚ) := by
      rw [div_lt_div_iff hden_pos (by positivity)]
      exact_mod_cast hnat
    have hexp : (2:ℚ) ^ ((a:ℤ) - b + 1) =
        ((2 ^ (a + 1) : ℕ) : ℚ) / ((2 ^ b : ℕ) : ℚ) := by
      have : (a:ℤ) - b + 1 = ((a + 1 : ℕ) : ℤ) - ((b : ℕ) : ℤ) := by push_cast; ring
      rw [this, zpow_sub₀ (by norm_num : (2:ℚ) ≠ 0), hzpow, hzpow]
    rw [← hexp, ← hq_eq] at hqq
    exact hqq
  have hexpo : expo q = if q < (2:ℚ) ^ ((a:ℤ) - b) then (a:ℤ) - b - 1 else (a:ℤ) - b := by
    simp only [expo, ← ha, ← hb]
  by_cases hcase : q < (2:ℚ) ^ ((a:ℤ) - b)
  · rw [hexpo, if_pos hcase]
    constructor
    · exact key_low.le
    · have : (a:ℤ) - b - 1 + 1 = (a:ℤ) - b := by ring
      rw [this]
      exact hcase
  · rw [hexpo, if_neg hcase]
    exact ⟨not_lt.mp hcase, key_high⟩

/-- Round-to-nearest-ties-to-even differs from its input by at most 1/2. -/
theorem rnEven_err (q : ℚ) : |(rnEven q : ℚ) - q| ≤ 1/2 := by
  have h0 : (0:ℚ) ≤ q - Int.floor q := sub_nonneg.mpr (Int.floor_le q)
  have h1 : q - Int.floor q < 1 := by
    have := Int.lt_floor_add_one q
    push_cast at this ⊢
    linarith
  unfold rnEven
  simp only []
  split_ifs with hlt hgt hev
  · rw [abs_sub_comm, abs_of_nonneg h0]
    linarith
  · rw [abs_of_nonneg (by push_cast; linarith)]
    push_cast
    linarith
  · have heq : q - Int.floor q = 1/2 := by linarith
    rw [abs_sub_comm, abs_of_nonneg h0]
    linarith
  · have heq : q - Int.floor q = 1/2 := by linarith
    rw [abs_of_nonneg (by push_cast; linarith)]
    push_cast
    linarith

/-- The positive-branch unfolding of `fround53`. -/
theorem fround53_pos_def (q : ℚ) (hq : 0 < q) :
    fround53 q =
      (rnEven (q * (2:ℚ) ^ ((52:ℤ) - expo q)) : ℚ) * (2:ℚ) ^ (expo q - (52:ℤ)) := by
  rw [fround53, if_neg (not_le.mpr hq)]

/-- Relative error of binary64 rounding: at most one part in `2^53`. -/
theorem fround53_err (q : ℚ) (hq : 0 < q) :
    |fround53 q - q| ≤ q / 9007199254740992 := by
  set e := expo q with he
  have hq_split : q = q * (2:ℚ) ^ ((52:ℤ) - e) * (2:ℚ) ^ (e - (52:ℤ)) := by
    rw [mul_assoc, ← zpow_add₀ (by norm_num : (2:ℚ) ≠ 0)]
    norm_num
  have hdiff : fround53 q - q =
      ((rnEven (q * (2:ℚ) ^ ((52:ℤ) - e)) : ℚ) - q * (2:ℚ) ^ ((52:ℤ) - e)) *
        (2:ℚ) ^ (e - (52:ℤ)) := by
    rw [fround53_pos_def q hq, ← he]
    calc (rnEven (q * (2:ℚ) ^ ((52:ℤ) - e)) : ℚ) * (2:ℚ) ^ (e - (52:ℤ)) - q =
        (rnEven (q * (2:ℚ) ^ ((52:ℤ) - e)) : ℚ) * (2:ℚ) ^ (e - (52:ℤ)) -
          q * (2:ℚ) ^ ((52:ℤ) - e) * (2:ℚ) ^ (e - (52:ℤ)) := by rw [← hq_split]
      _ = ((rnEven (q * (2:ℚ) ^ ((52:ℤ) - e)) : ℚ) - q * (2:ℚ) ^ ((52:ℤ) - e)) *
          (2:ℚ) ^ (e - (52:ℤ)) := by ring
  have hpow_pos : (0:ℚ) < (2:ℚ) ^ (e - (52:ℤ)) := zpow_pos (by norm_num) _
  have habs : |fround53 q - q| ≤ (1/2) * (2:ℚ) ^ (e - (52:ℤ)) := by
    rw [hdiff, abs_mul, abs_of_pos hpow_pos]
    exact mul_le_mul_of_nonneg_right (rnEven_err _) hpow_pos.le
  have hbound : (1/2) * (2:ℚ) ^ (e - (52:ℤ)) ≤ q / 9007199254740992 := by
    have h2e : (2:ℚ) ^ e ≤ q := (expo_spec q hq).1
    have hrw : (1/2) * (2:ℚ) ^ (e - (52:ℤ)) = (2:ℚ) ^ e * (2:ℚ) ^ (-(53:ℤ)) := by
      rw [← zpow_add₀ (by norm_num : (2:ℚ) ≠ 0)]
      have : e - (52:ℤ) = e + -(53:ℤ) + 1 := by ring
      rw [this, zpow_add₀ (by norm_num : (2:ℚ) ≠ 0)]
      ring
    rw [hrw]
    have hK : (2:ℚ) ^ (-(53:ℤ)) = 1 / 9007199254740992 := by
      norm_num [zpow_neg]
    rw [hK]
    rw [div_eq_mul_one_div q 9007199254740992]
    exact mul_le_mul_of_nonneg_right h2e (by norm_num)
  linarith

/-- Triangle bound: rounding a value close to `r` stays close to `r`. -/
theorem fround53_window (q r d : ℚ) (hq : 0 < q) (h : |q - r| ≤ d) :
    |fround53 q - r| ≤ d + q / 9007199254740992 := by
  have h1 := fround53_err q hq
  calc |fround53 q - r| ≤ |fround53 q - q| + |q - r| := abs_sub_le _ _ _
    _ ≤ q / 9007199254740992 + d := add_le_add h1 h
    _ = d + q / 9007199254740992 := by ring

/-- For a float constant `c` within relative distance `2^-53` of the
exact ratio `ρ ≤ 1` and a total `1 ≤ t ≤ 2^40`, the rounded product
`fround53 (t * c)` lies within `1/2048` of `ρ * t`. -/
theorem fround53_mul_near (c ρ : ℚ) (t : ℕ) (hc : 0 < c)
    (hd : |c - ρ| ≤ ρ / 9007199254740992) (hρ1 : 0 < ρ) (hρ2 : ρ ≤ 1)
    (ht1 : 1 ≤ t) (ht2 : t ≤ 1099511627776) :
    |fround53 ((t:ℚ) * c) - ρ * (t:ℚ)| ≤ 1/2048 := by
  have htq1 : (1:ℚ) ≤ (t:ℚ) := by exact_mod_cast ht1
  have htq2 : (t:ℚ) ≤ 1099511627776 := by exact_mod_cast ht2
  have hq : (0:ℚ) < (t:ℚ) * c := by positivity
  have h1 : |(t:ℚ) * c - ρ * (t:ℚ)| ≤ (t:ℚ) * (ρ / 9007199254740992) := by
    have hr : (t:ℚ) * c - ρ * (t:ℚ) = (t:ℚ) * (c - ρ) := by ring
    rw [hr, abs_mul, abs_of_nonneg (by positivity : (0:ℚ) ≤ (t:ℚ))]
    exact mul_le_mul_of_nonneg_left hd (by positivity)
  have h2 := fround53_window ((t:ℚ) * c) (ρ * (t:ℚ)) ((t:ℚ) * (ρ / 9007199254740992)) hq h1
  have hcub : c ≤ 2 := by
    have := abs_le.mp hd
    nlinarith
  have h3 : (t:ℚ) * (ρ / 9007199254740992) ≤ 1099511627776 / 9007199254740992 := by
    have hle : (t:ℚ) * ρ ≤ 1099511627776 := by nlinarith
    calc (t:ℚ) * (ρ / 9007199254740992) = ((t:ℚ) * ρ) / 9007199254740992 := by ring
      _ ≤ 1099511627776 / 9007199254740992 := (div_le_div_right (by norm_num)).mpr hle
  have h4 : (t:ℚ) * c / 9007199254740992 ≤ 2 * 1099511627776 / 9007199254740992 := by
    have hle : (t:ℚ) * c ≤ 2 * 1099511627776 := by nlinarith
    exact (div_le_div_right (by norm_num)).mpr hle
  calc |fround53 ((t:ℚ) * c) - ρ * (t:ℚ)|
      ≤ (t:ℚ) * (ρ / 9007199254740992) + (t:ℚ) * c / 9007199254740992 := h2
    _ ≤ 1099511627776 / 9007199254740992 + 2 * 1099511627776 / 9007199254740992 := by
        linarith
    _ ≤ 1/2048 := by norm_num

/-- When the integer count strictly exceeds the exact percentage by at
least the integer granularity `1/10`, the Python float comparison fires. -/
theorem pyGtMulFloat_true (c ρ : ℚ) (t s : ℕ) (hc : 0 < c)
    (hd : |c - ρ| ≤ ρ / 9007199254740992) (hρ1 : 0 < ρ) (hρ2 : ρ ≤ 1)
    (ht1 : 1 ≤ t) (ht2 : t ≤ 1099511627776)
    (hs : ρ * (t:ℚ) + 1/10 ≤ (s:ℚ)) :
    pyGtMulFloat s t c = true := by
  have h := abs_le.mp (fround53_mul_near c ρ t hc hd hρ1 hρ2 ht1 ht2)
  simp only [pyGtMulFloat, decide_eq_true_eq]
  linarith

/-- When the integer count falls short of the exact percentage by at
least `1/10`, the Python float comparison does not fire. -/
theorem pyGtMulFloat_false (c ρ : ℚ) (t s : ℕ) (hc : 0 < c)
    (hd : |c - ρ| ≤ ρ / 9007199254740992) (hρ1 : 0 < ρ) (hρ2 : ρ ≤ 1)
    (ht1 : 1 ≤ t) (ht2 : t ≤ 1099511627776)
    (hs : (s:ℚ) ≤ ρ * (t:ℚ) - 1/10) :
    pyGtMulFloat s t c = false := by
  have h := abs_le.mp (fround53_mul_near c ρ t hc hd hρ1 hρ2 ht1 ht2)
  simp only [pyGtMulFloat, decide_eq_false_iff_not, not_lt]
  linarith

/-- Distance bound for the binary64 literal `0.7` from `7/10`. -/
theorem c07_near : |c07 - 7/10| ≤ (7/10) / 9007199254740992 := by
  rw [abs_of_nonpos (by norm_num [c07])]
  norm_num [c07]

/-- Distance bound for the binary64 literal `0.3` from `3/10`. -/
theorem c03_near : |c03 - 3/10| ≤ (3/10) / 9007199254740992 := by
  rw [abs_of_nonpos (by norm_num [c03])]
  norm_num [c03]

/-- Distance bound for the binary64 literal `0.2` from `1/5`. -/
theorem c02_near : |c02 - 1/5| ≤ (1/5) / 9007199254740992 := by
  rw [abs_of_nonneg (by norm_num [c02])]
  norm_num [c02]

/-- Distance bound for the binary64 literal `0.15` from `3/20`. -/
theorem c015_near : |c015 - 3/20| ≤ (3/20) / 9007199254740992 := by
  rw [abs_of_nonpos (by norm_num [c015])]
  norm_num [c015]

/-- Uniqueness of the binade exponent. -/
theorem expo_eq (q : ℚ) (e : ℤ) (hq : 0 < q)
    (h1 : (2:ℚ) ^ e ≤ q) (h2 : q < (2:ℚ) ^ (e + 1)) : expo q = e := by
  obtain ⟨l, u⟩ := expo_spec q hq
  by_contra hne
  rcases lt_or_gt_of_ne hne with hlt | hgt
  · have : (2:ℚ) ^ (expo q + 1) ≤ (2:ℚ) ^ e :=
      zpow_le_zpow_right₀ (by norm_num) (by omega)
    linarith
  · have : (2:ℚ) ^ (e + 1) ≤ (2:ℚ) ^ (expo q) :=
      zpow_le_zpow_right₀ (by norm_num) (by omega)
    linarith

/-- Evaluation of `rnEven` away from a tie, round-down case. -/
theorem rnEven_eq_near (x : ℚ) (k : ℤ) (h1 : (k:ℚ) ≤ x) (h2 : x < (k:ℚ) + 1/2) :
    rnEven x = k := by
  have hf : Int.floor x = k := by
    rw [Int.floor_eq_iff]
    constructor
    · exact_mod_cast h1
    · push_cast
      linarith
  unfold rnEven
  simp only []
  rw [hf, if_pos (by linarith : x - ((k:ℤ):ℚ) < 1/2)]

/-- Closed-form evaluation of `fround53` in the round-down case. -/
theorem fround53_eval (q : ℚ) (e k : ℤ) (hq : 0 < q)
    (h1 : (2:ℚ) ^ e ≤ q) (h2 : q < (2:ℚ) ^ (e + 1))
    (h3 : (k:ℚ) ≤ q * (2:ℚ) ^ ((52:ℤ) - e)) (h4 : q * (2:ℚ) ^ ((52:ℤ) - e) < (k:ℚ) + 1/2) :
    fround53 q = (k:ℚ) * (2:ℚ) ^ (e - (52:ℤ)) := by
  have he := expo_eq q e hq h1 h2
  rw [fround53_pos_def q hq, he, rnEven_eq_near _ k h3 h4]

/-- C7 counterexample: the distribution with 63 short gaps and 27 medium
gaps out of 90 (shares of exactly 70% and 30%, exceeding neither
threshold) makes the recommender select `spline_interpolation`, because
`90 * 0.7` rounds in binary64 to `62.99999999999999`, strictly below 63 —
while the claimed exact-threshold procedure selects nothing. -/
theorem C7_counterexample :
    recommendPrimary "unknown" [] ⟨63, 0, 0, 27, 0, 0, 0, 0, 0⟩ = "spline_interpolation" ∧
    specFallbackSelect ⟨63, 0, 0, 27, 0, 0, 0, 0, 0⟩ = "unknown" ∧
    ("spline_interpolation" : String) ≠ "unknown" := by
  have hfr : fround53 ((90:ℚ) * c07) = (8866461766385663:ℚ) * (2:ℚ) ^ ((5:ℤ) - (52:ℤ)) := by
    have := fround53_eval ((90:ℚ) * c07) 5 8866461766385663 (by norm_num [c07])
      (by norm_num [c07]) (by norm_num [c07]) (by norm_num [c07]) (by norm_num [c07])
    exact_mod_cast this
  have hb1 : pyGtMulFloat 63 90 c07 = true := by
    simp only [pyGtMulFloat, decide_eq_true_eq]
    push_cast
    rw [hfr]
    norm_num
  have hs : shortGaps ⟨63, 0, 0, 27, 0, 0, 0, 0, 0⟩ = 63 := rfl
  have ht : totalGaps ⟨63, 0, 0, 27, 0, 0, 0, 0, 0⟩ = 90 := rfl
  refine ⟨?_, by decide, by decide⟩
  simp [recommendPrimary, hs, ht, hb1]

/-- C7 (amended).  Recommender fallback: with primary pattern `unknown`
and at least one gap, the thresholds are applied first-match-wins, each
evaluated as `count > total * c` in binary64 arithmetic.  Away from exact
threshold boundaries this agrees with the spec's percentages: a short
share strictly above 70% selects `spline_interpolation`; otherwise (short
strictly below 70%) a medium share strictly above 30% selects
`gaussian_process`; otherwise a long share strictly above 20% selects
`physics_based_model`.  A share exactly equal to a threshold may also
fire its rule, depending on how `total * {0.7, 0.3, 0.2}` rounds. -/
theorem C7_fallback_thresholds (sec : List String) (d : GapDist)
    (h1 : 1 ≤ totalGaps d) (h2 : totalGaps d ≤ 1099511627776) :
    (7 * totalGaps d < 10 * shortGaps d →
      recommendPrimary "unknown" sec d = "spline_interpolation") ∧
    (10 * shortGaps d < 7 * totalGaps d → 3 * totalGaps d < 10 * mediumGaps d →
      recommendPrimary "unknown" sec d = "gaussian_process") ∧
    (10 * shortGaps d < 7 * totalGaps d → 10 * mediumGaps d < 3 * totalGaps d →
      totalGaps d < 5 * longGaps d →
      recommendPrimary "unknown" sec d = "physics_based_model") := by
  have ht0 : ¬ totalGaps d = 0 := by omega
  have hc07 : (0:ℚ) < c07 := by norm_num [c07]
  have hc03 : (0:ℚ) < c03 := by norm_num [c03]
  have hc02 : (0:ℚ) < c02 := by norm_num [c02]
  refine ⟨?_, ?_, ?_⟩
  · intro ha
    have hs : (7:ℚ)/10 * (totalGaps d : ℚ) + 1/10 ≤ (shortGaps d : ℚ) := by
      have : (7 * totalGaps d + 1 : ℚ) ≤ (10 * shortGaps d : ℚ) := by exact_mod_cast ha
      push_cast at this ⊢
      linarith
    have hb1 := pyGtMulFloat_true c07 (7/10) (totalGaps d) (shortGaps d) hc07 c07_near
      (by norm_num) (by norm_num) h1 h2 hs
    simp [recommendPrimary, ht0, hb1]
  · intro ha hb
    have hs1 : (shortGaps d : ℚ) ≤ (7:ℚ)/10 * (totalGaps d : ℚ) - 1/10 := by
      have : (10 * shortGaps d + 1 : ℚ) ≤ (7 * totalGaps d : ℚ) := by exact_mod_cast ha
      push_cast at this ⊢
      linarith
    have hs2 : (3:ℚ)/10 * (totalGaps d : ℚ) + 1/10 ≤ (mediumGaps d : ℚ) := by
      have : (3 * totalGaps d + 1 : ℚ) ≤ (10 * mediumGaps d : ℚ) := by exact_mod_cast hb
      push_cast at this ⊢
      linarith
    have hb1 := pyGtMulFloat_false c07 (7/10) (totalGaps d) (shortGaps d) hc07 c07_near
      (by norm_num) (by norm_num) h1 h2 hs1
    have hb2 := pyGtMulFloat_true c03 (3/10) (totalGaps d) (mediumGaps d) hc03 c03_near
      (by norm_num) (by norm_num) h1 h2 hs2
    simp [recommendPrimary, ht0, hb1, hb2]
  · intro ha hb hc
    have hs1 : (shortGaps d : ℚ) ≤ (7:ℚ)/10 * (totalGaps d : ℚ) - 1/10 := by
      have : (10 * shortGaps d + 1 : ℚ) ≤ (7 * totalGaps d : ℚ) := by exact_mod_cast ha
      push_cast at this ⊢
      linarith
    have hs2 : (mediumGaps d : ℚ) ≤ (3:ℚ)/10 * (totalGaps d : ℚ) - 1/10 := by
      have : (10 * mediumGaps d + 1 : ℚ) ≤ (3 * totalGaps d : ℚ) := by exact_mod_cast hb
      push_cast at this ⊢
      linarith
    have hs3 : (1:ℚ)/5 * (totalGaps d : ℚ) + 1/10 ≤ (longGaps d : ℚ) := by
      have : (totalGaps d + 1 : ℚ) ≤ (5 * longGaps d : ℚ) := by exact_mod_cast hc
      push_cast at this ⊢
      linarith
    have hb1 := pyGtMulFloat_false c07 (7/10) (totalGaps d) (shortGaps d) hc07 c07_near
      (by norm_num) (by norm_num) h1 h2 hs1
    have hb2 := pyGtMulFloat_false c03 (3/10) (totalGaps d) (mediumGaps d) hc03 c03_near
      (by norm_num) (by norm_num) h1 h2 hs2
    have hb3 := pyGtMulFloat_true c02 (1/5) (totalGaps d) (longGaps d) hc02 c02_near
      (by norm_num) (by norm_num) h1 h2 hs3
    simp [recommendPrimary, ht0, hb1, hb2, hb3]

/-- C7 witness: a distribution with 8 of 10 gaps short (80% > 70%)
selects `spline_interpolation` through the amended fallback theorem. -/
theorem C7_fallback_thresholds_witness :
    recommendPrimary "unknown" [] ⟨8, 0, 0, 1, 0, 0, 0, 0, 1⟩ = "spline_interpolation" :=
  (C7_fallback_thresholds [] ⟨8, 0, 0, 1, 0, 0, 0, 0, 1⟩ (by decide)
    (by norm_num [totalGaps])).1 (by decide)

/-- Evaluation of `n_validation` off the double-rounding boundary: for a
complete-row count that is not a multiple of 20, `int(c * 0.15)` is
exactly `⌊3c/20⌋`. -/
theorem nValidation_eq (c : ℕ) (h1 : 1 ≤ c) (h2 : c ≤ 1099511627776)
    (h20 : ¬ 20 ∣ c) : nValidation c = max 10 (3 * c / 20) := by
  have hnear := fround53_mul_near c015 (3/20) c (by norm_num [c015]) c015_near
    (by norm_num) (by norm_num) h1 h2
  obtain ⟨hlo, hhi⟩ := abs_le.mp hnear
  set F := 3 * c / 20 with hF
  set r := 3 * c % 20 with hr
  have hdiv : 3 * c = 20 * F + r := by omega
  have hr1 : 1 ≤ r := by omega
  have hr19 : r ≤ 19 := by omega
  have hQ : (3:ℚ)/20 * (c:ℚ) = (F:ℚ) + (r:ℚ)/20 := by
    have hcast : (3:ℚ) * (c:ℚ) = 20 * (F:ℚ) + (r:ℚ) := by exact_mod_cast hdiv
    field_simp
    linarith
  have hrq1 : (1:ℚ) ≤ (r:ℚ) := by exact_mod_cast hr1
  have hrq19 : (r:ℚ) ≤ 19 := by exact_mod_cast hr19
  have hfl : Int.floor (fround53 ((c:ℚ) * c015)) = (F : ℤ) := by
    rw [Int.floor_eq_iff]
    constructor
    · push_cast
      rw [hQ] at hlo
      linarith
    · push_cast
      rw [hQ] at hhi
      linarith
  have hge : (0:ℚ) ≤ fround53 ((c:ℚ) * c015) := by
    rw [hQ] at hlo
    have hF0 : (0:ℚ) ≤ (F:ℚ) := by positivity
    linarith
  unfold nValidation pyInt
  rw [if_neg (not_lt.mpr hge), hfl, Int.toNat_natCast]

/-- The number of validation indices never exceeds the number of
complete rows (needed to satisfy the draw contract). -/
theorem nValidation_le (c : ℕ) (h2 : c ≤ 1099511627776) (h20 : 20 ≤ c) :
    nValidation c ≤ c := by
  have h1 : 1 ≤ c := by omega
  have hnear := fround53_mul_near c015 (3/20) c (by norm_num [c015]) c015_near
    (by norm_num) (by norm_num) h1 h2
  obtain ⟨hlo, hhi⟩ := abs_le.mp hnear
  have hcq : (20:ℚ) ≤ (c:ℚ) := by exact_mod_cast h20
  have hge : (0:ℚ) ≤ fround53 ((c:ℚ) * c015) := by linarith
  have hlt : fround53 ((c:ℚ) * c015) < (c:ℚ) := by linarith
  have hpy : pyInt (fround53 ((c:ℚ) * c015)) < (c:ℤ) := by
    unfold pyInt
    rw [if_neg (not_lt.mpr hge)]
    exact Int.floor_lt.mpr (by exact_mod_cast hlt)
  unfold nValidation
  have htn : (pyInt (fround53 ((c:ℚ) * c015))).toNat ≤ c :=
    Int.toNat_le.mpr (by omega)
  omega

/-- C6 counterexample: a frame with 101 complete rows yields
`max(10, int(101 * 0.15)) = 15` validation indices, not the claimed
`⌈101 * 15%⌉ = 16` — the count is a truncation, not a ceiling. -/
theorem C6_counterexample :
    ((createValidationSplit chooseFirst (List.replicate 101 [some (1:ℚ)])).2.map
      (fun info => info.validationIndices.length)) = some 15 ∧
    (15:ℤ) ≠ Int.ceil ((15:ℚ)/100 * 101) := by
  have h15 : nValidation 101 = 15 := by
    rw [nValidation_eq 101 (by norm_num) (by norm_num) (by decide)]
    decide
  have hci : completeIndicesQ (List.replicate 101 [some (1:ℚ)]) = List.range 101 := by
    decide
  constructor
  · unfold createValidationSplit
    rw [hci]
    simp only [List.length_range]
    rw [if_neg (by norm_num), h15]
    simp [chooseFirst, List.length_take]
  · have : Int.ceil ((15:ℚ)/100 * 101) = 16 := by
      rw [Int.ceil_eq_iff]
      norm_num
    omega

/-- C6 (amended).  Validation split: with fewer than 20 complete rows the
function returns the frame unchanged plus the diagnostic marker — no
error is raised.  With at least 20 complete rows, and for any draw
function honouring the seeded `np.random.choice` contract (returning the
requested number of elements from its pool — determinism holds because
the seed is fixed at 42, making the draw a function of the pool), the
split selects `max(10, int(0.15 * c))` indices — the truncation, i.e.
`⌊0.15c⌋` for every `c` that is not a multiple of 20, not the ceiling —
and every selected index denotes a row complete across all power
columns. -/
theorem C6_validation_split (χ : List ℕ → ℕ → List ℕ) (f : List (List (Option ℚ)))
    (hχ : ∀ (l : List ℕ) (k : ℕ), k ≤ l.length →
      (χ l k).length = k ∧ ∀ x ∈ χ l k, x ∈ l)
    (h2 : (completeIndicesQ f).length ≤ 1099511627776) :
    ((completeIndicesQ f).length < 20 → createValidationSplit χ f = (f, none)) ∧
    (20 ≤ (completeIndicesQ f).length →
      ∃ info, (createValidationSplit χ f).2 = some info ∧
        info.validationIndices.length = nValidation (completeIndicesQ f).length ∧
        (¬ 20 ∣ (completeIndicesQ f).length →
          info.validationIndices.length = max 10 (3 * (completeIndicesQ f).length / 20)) ∧
        ∀ i ∈ info.validationIndices, i < f.length ∧ completeRowQ (f.getD i []) = true) := by
  constructor
  · intro h
    unfold createValidationSplit
    rw [if_pos h]
  · intro h20
    have hle : nValidation (completeIndicesQ f).length ≤ (completeIndicesQ f).length :=
      nValidation_le _ h2 h20
    obtain ⟨hlen, hmem⟩ := hχ (completeIndicesQ f) (nValidation (completeIndicesQ f).length) hle
    refine ⟨⟨χ (completeIndicesQ f) (nValidation (completeIndicesQ f).length),
      (χ (completeIndicesQ f) (nValidation (completeIndicesQ f).length)).map
        (fun i => (i, f.getD i [])),
      (χ (completeIndicesQ f) (nValidation (completeIndicesQ f).length)).length⟩, ?_, hlen, ?_, ?_⟩
    · unfold createValidationSplit
      rw [if_neg (not_lt.mpr h20)]
    · intro hnd
      rw [hlen, nValidation_eq _ (by omega) h2 hnd]
    · intro i hi
      have := hmem i hi
      unfold completeIndicesQ at this
      rw [List.mem_filter] at this
      exact ⟨List.mem_range.mp this.1, this.2⟩

/-- C6 witness: the amended split theorem applied to the concrete
`take`-draw and the 101-complete-row frame. -/
theorem C6_validation_split_witness :
    20 ≤ (completeIndicesQ (List.replicate 101 [some (1:ℚ)])).length ∧
    (∃ info,
      (createValidationSplit chooseFirst (List.replicate 101 [some (1:ℚ)])).2 = some info ∧
      info.validationIndices.length =
        nValidation (completeIndicesQ (List.replicate 101 [some (1:ℚ)])).length ∧
      (¬ 20 ∣ (completeIndicesQ (List.replicate 101 [some (1:ℚ)])).length →
        info.validationIndices.length =
          max 10 (3 * (completeIndicesQ (List.replicate 101 [some (1:ℚ)])).length / 20)) ∧
      ∀ i ∈ info.validationIndices, i < (List.replicate 101 [some (1:ℚ)]).length ∧
        completeRowQ ((List.replicate 101 [some (1:ℚ)]).getD i []) = true) := by
  have hci : completeIndicesQ (List.replicate 101 [some (1:ℚ)]) = List.range 101 := by
    decide
  have h20 : 20 ≤ (completeIndicesQ (List.replicate 101 [some (1:ℚ)])).length := by
    rw [hci, List.length_range]
    norm_num
  refine ⟨h20, (C6_validation_split chooseFirst (List.replicate 101 [some (1:ℚ)])
    ?_ ?_).2 h20⟩
  · intro l k hk
    refine ⟨?_, fun x hx => List.take_subset k l hx⟩
    simp [chooseFirst, List.length_take]
    omega
  · rw [hci, List.length_range]
    norm_num

/-- C8 counterexample: a column with exactly 5 gaps whose lengths grow
perfectly with time (Pearson correlation 1 > 0.3) keeps degradation
label `unknown` — the source guard is `len(gap_lengths) > 5`, not `≥ 5`. -/
theorem C8_counterexample :
    degradationLabel [0, 1, 2, 3, 4] [1, 2, 3, 4, 5] = "unknown" ∧
    corrAbove [0, 1, 2, 3, 4] [1, 2, 3, 4, 5] = true ∧
    ("unknown" : String) ≠ "detected" := by
  refine ⟨rfl, ?_, by decide⟩
  simp only [corrAbove, pearsonNum, pearsonVar, qsum, List.zipWith, List.foldl,
    List.length_cons, List.length_nil, Bool.and_eq_true, decide_eq_true_eq]
  norm_num

/-- C8 (amended).  Degradation classification: the label is computed
exactly when the column has more than 5 gaps (at least 6) — with 5 or
fewer gaps (including the 3-and-4-gap window where other patterns are
already analysed) the degradation label stays `unknown`; with at least 6
gaps the Pearson correlation between numeric gap start time and gap
length classifies `> 0.3` as detected, `< -0.3` as improving, and
everything else (including the zero-variance NaN case) as stable. -/
theorem C8_degradation (ts ls : List ℚ) (hlen : ls.length = ts.length) :
    (ts.length ≤ 5 → degradationLabel ts ls = "unknown") ∧
    (6 ≤ ts.length →
      degradationLabel ts ls =
        if corrAbove ts ls then "detected"
        else if corrBelow ts ls then "improving"
        else "stable") := by
  constructor
  · intro h
    unfold degradationLabel
    by_cases h3 : ts.length < 3
    · rw [if_pos h3]
    · rw [if_neg h3, if_neg (by omega)]
  · intro h
    unfold degradationLabel
    rw [if_neg (by omega), if_pos (by omega)]

/-- C8 witness: six gaps with strictly decreasing lengths classify as
`improving` through the amended theorem. -/
theorem C8_degradation_witness :
    degradationLabel [0, 1, 2, 3, 4, 5] [6, 5, 4, 3, 2, 1] = "improving" := by
  have h := (C8_degradation [0, 1, 2, 3, 4, 5] [6, 5, 4, 3, 2, 1] (by decide)).2 (by decide)
  rw [h]
  have hA : corrAbove [0, 1, 2, 3, 4, 5] [6, 5, 4, 3, 2, 1] = false := by
    simp only [corrAbove, pearsonNum, pearsonVar, qsum, List.zipWith, List.foldl,
      List.length_cons, List.length_nil, Bool.and_eq_true, decide_eq_true_eq]
    norm_num
  have hB : corrBelow [0, 1, 2, 3, 4, 5] [6, 5, 4, 3, 2, 1] = true := by
    simp only [corrBelow, pearsonNum, pearsonVar, qsum, List.zipWith, List.foldl,
      List.length_cons, List.length_nil, Bool.and_eq_true, decide_eq_true_eq]
    norm_num
  rw [hA, hB]
  simp

/-- The scan index advances by exactly the number of consumed elements. -/
theorem foldl_gapStep_idx (l : List Bool) : ∀ st : GapScan,
    (l.foldl gapStep st).idx = st.idx + l.length := by
  induction l with
  | nil => intro st; simp
  | cons m t ih =>
    intro st
    rw [List.foldl_cons, ih]
    simp [gapStep]
    omega

/-- One step preserves the scan invariant: all recorded gaps start at a
positive index, a tracked gap starts at a positive index, a tracked gap
implies the previous element was missing, and a present previous element
implies a positive index. -/
theorem gapStep_inv (st : GapScan) (m : Bool)
    (h1 : ∀ g ∈ st.acc, 1 ≤ g.startIndex)
    (h2 : ∀ sl : ℕ × ℕ, st.cur = some sl → 1 ≤ sl.1)
    (h3 : ∀ sl : ℕ × ℕ, st.cur = some sl → st.prevMiss = true)
    (h4 : st.prevPres = true → 1 ≤ st.idx) :
    (∀ g ∈ (gapStep st m).acc, 1 ≤ g.startIndex) ∧
    (∀ sl : ℕ × ℕ, (gapStep st m).cur = some sl → 1 ≤ sl.1) ∧
    (∀ sl : ℕ × ℕ, (gapStep st m).cur = some sl → (gapStep st m).prevMiss = true) ∧
    ((gapStep st m).prevPres = true → 1 ≤ (gapStep st m).idx) := by
  rcases st with ⟨i, pm, pp, cur, acc⟩
  cases m <;> cases pm <;> cases pp <;> rcases cur with _ | ⟨s, len⟩ <;>
    simp_all [gapStep, List.mem_append] <;>
    first
      | omega
      | (rintro g (hg | rfl) <;> [exact h1 g hg; exact h2])

/-- The whole scan preserves the invariant. -/
theorem foldl_gapStep_inv (l : List Bool) : ∀ st : GapScan,
    (∀ g ∈ st.acc, 1 ≤ g.startIndex) →
    (∀ sl : ℕ × ℕ, st.cur = some sl → 1 ≤ sl.1) →
    (∀ sl : ℕ × ℕ, st.cur = some sl → st.prevMiss = true) →
    (st.prevPres = true → 1 ≤ st.idx) →
    (∀ g ∈ (l.foldl gapStep st).acc, 1 ≤ g.startIndex) ∧
    (∀ sl : ℕ × ℕ, (l.foldl gapStep st).cur = some sl → 1 ≤ sl.1) ∧
    (∀ sl : ℕ × ℕ, (l.foldl gapStep st).cur = some sl →
      (l.foldl gapStep st).prevMiss = true) ∧
    ((l.foldl gapStep st).prevPres = true → 1 ≤ (l.foldl gapStep st).idx) := by
  induction l with
  | nil => intro st h1 h2 h3 h4; exact ⟨h1, h2, h3, h4⟩
  | cons m t ih =>
    intro st h1 h2 h3 h4
    obtain ⟨g1, g2, g3, g4⟩ := gapStep_inv st m h1 h2 h3 h4
    exact ih (gapStep st m) g1 g2 g3 g4

/-- Under the invariant, a non-missing element closes (and possibly
emits) the tracked gap and marks the previous element present. -/
theorem gapStep_false (st : GapScan)
    (h3 : ∀ sl : ℕ × ℕ, st.cur = some sl → st.prevMiss = true) :
    gapStep st false =
      ⟨st.idx + 1, false, true, none,
        st.acc ++ (match st.cur with
          | some sl => [⟨sl.1, st.idx - 1, sl.2⟩]
          | none => [])⟩ := by
  rcases st with ⟨i, pm, pp, cur, acc⟩
  rcases cur with _ | ⟨s, len⟩
  · simp [gapStep]
  · have hpm : pm = true := h3 (s, len) rfl
    subst hpm
    simp [gapStep]

/-- A run of missing values extends the tracked gap one step at a time. -/
theorem foldl_replicate_true_inGap : ∀ (k i s len : ℕ) (acc : List GapRec),
    (List.replicate k true).foldl gapStep ⟨i, true, false, some (s, len), acc⟩ =
      ⟨i + k, true, false, some (s, len + k), acc⟩ := by
  intro k
  induction k with
  | zero => intro i s len acc; simp
  | succ k ih =>
    intro i s len acc
    rw [List.replicate_succ, List.foldl_cons]
    have hstep : gapStep ⟨i, true, false, some (s, len), acc⟩ true =
        ⟨i + 1, true, false, some (s, len + 1), acc⟩ := by
      simp [gapStep]
    rw [hstep, ih]
    have e1 : i + 1 + k = i + (k + 1) := by omega
    have e2 : len + 1 + k = len + (k + 1) := by omega
    rw [e1, e2]

/-- A run of missing values reaching back to the start of the series is
never tracked: the scan state stays gap-free. -/
theorem foldl_replicate_true_none : ∀ (n i : ℕ) (pm : Bool) (acc : List GapRec),
    ((List.replicate n true).foldl gapStep ⟨i, pm, false, none, acc⟩).cur = none ∧
    ((List.replicate n true).foldl gapStep ⟨i, pm, false, none, acc⟩).acc = acc := by
  intro n
  induction n with
  | zero => intro i pm acc; exact ⟨rfl, rfl⟩
  | succ n ih =>
    intro i pm acc
    rw [List.replicate_succ, List.foldl_cons]
    have hstep : gapStep ⟨i, pm, false, none, acc⟩ true =
        ⟨i + 1, true, false, none, acc⟩ := by
      simp [gapStep]
    rw [hstep]
    exact ih (i + 1) true acc

/-- C3 counterexample: a series whose values are all missing yields NO
GapRecord at all — not the claimed single record spanning the whole
series — because `gap_starts` is identically false when no non-missing
value precedes the run. -/
theorem C3_counterexample :
    findGapsGeneric [true, true, true] = [] ∧
    ([] : List GapRec) ≠ [⟨0, 2, 3⟩] :=
  ⟨rfl, by decide⟩

/-- C3 (amended).  Gap Detector edge cases: an empty series yields the
empty sequence; a series whose values are all missing also yields the
empty sequence (the leading run is never opened); more generally every
emitted GapRecord starts at index ≥ 1, so no gap ever starts at index 0;
and a trailing missing run is included provided it begins after a
non-missing value — appending `false` followed by `k+1` missing values
to any prefix appends exactly one final GapRecord with start index
`|p|+1`, end index `|p|+1+k` (the last index of the series) and length
`k+1`. -/
theorem C3_gap_detector :
    (findGapsGeneric [] = []) ∧
    (∀ n : ℕ, findGapsGeneric (List.replicate n true) = []) ∧
    (∀ (miss : List Bool) (g : GapRec), g ∈ findGapsGeneric miss → 1 ≤ g.startIndex) ∧
    (∀ (p : List Bool) (k : ℕ),
      findGapsGeneric (p ++ false :: List.replicate (k + 1) true) =
        findGapsGeneric (p ++ [false]) ++ [⟨p.length + 1, p.length + 1 + k, k + 1⟩]) := by
  refine ⟨rfl, ?_, ?_, ?_⟩
  · intro n
    obtain ⟨hc, ha⟩ := foldl_replicate_true_none n 0 false []
    simp only [findGapsGeneric, gapInit] at *
    rw [hc, ha]
  · intro miss g hg
    obtain ⟨a1, a2, _, _⟩ := foldl_gapStep_inv miss gapInit
      (by simp [gapInit]) (by simp [gapInit]) (by simp [gapInit]) (by simp [gapInit])
    simp only [findGapsGeneric] at hg
    rcases hcur : (miss.foldl gapStep gapInit).cur with _ | sl
    · rw [hcur] at hg
      exact a1 g hg
    · rw [hcur] at hg
      simp only [List.mem_append, List.mem_singleton] at hg
      rcases hg with hg | rfl
      · exact a1 g hg
      · exact a2 sl hcur
  · intro p k
    obtain ⟨i1, i2, i3, i4⟩ := foldl_gapStep_inv p gapInit
      (by simp [gapInit]) (by simp [gapInit]) (by simp [gapInit]) (by simp [gapInit])
    have hfalse := gapStep_false (p.foldl gapStep gapInit) i3
    have hidx : (p.foldl gapStep gapInit).idx = p.length := by
      rw [foldl_gapStep_idx]
      simp [gapInit]
    simp only [findGapsGeneric]
    rw [List.foldl_append, List.foldl_append, List.foldl_cons, List.foldl_cons,
      List.foldl_nil, hfalse, List.replicate_succ, List.foldl_cons]
    have hstep1 : gapStep ⟨(p.foldl gapStep gapInit).idx + 1, false, true, none,
        (p.foldl gapStep gapInit).acc ++
          (match (p.foldl gapStep gapInit).cur with
            | some sl => [⟨sl.1, (p.foldl gapStep gapInit).idx - 1, sl.2⟩]
            | none => [])⟩ true =
        ⟨(p.foldl gapStep gapInit).idx + 2, true, false,
          some ((p.foldl gapStep gapInit).idx + 1, 1),
          (p.foldl gapStep gapInit).acc ++
            (match (p.foldl gapStep gapInit).cur with
              | some sl => [⟨sl.1, (p.foldl gapStep gapInit).idx - 1, sl.2⟩]
              | none => [])⟩ := by
      simp [gapStep]
    rw [hstep1, foldl_replicate_true_inGap]
    simp only [hidx]
    have e : (⟨p.length + 1, p.length + 2 + k - 1, 1 + k⟩ : GapRec) =
        ⟨p.length + 1, p.length + 1 + k, k + 1⟩ := by
      congr 1 <;> omega
    rw [e]

/-- C3 witness: the amended detector theorem evaluated on a concrete
series — the record emitted for `[false, true, true]` starts at a
positive index. -/
theorem C3_gap_detector_witness :
    1 ≤ (GapRec.mk 1 2 2).startIndex :=
  C3_gap_detector.2.2.1 [false, true, true] ⟨1, 2, 2⟩ (by decide)
